import Mathlib

/-!
Verification of the mail cache, sync reconciler, and view projector of the
mailgui desktop client.  The definitions below are a shallow embedding of
`src/mailgui.py`: the SQLite-backed `MailCache` becomes a list of stored rows
in insertion order (rowid order), the POP3/IMAP fetch threads become pure
functions over an explicit server oracle that records which remote calls
raise, and the Tk view code becomes pure list transforms.
-/

namespace MailGui

/-- Raw message bytes (the SQLite BLOB column). -/
abbrev Bytes := List Nat

/-- One row of the `emails` table, primary key `(account, folder, uid)`.
`raw` is `none` when the BLOB is NULL. -/
structure StoredRow where
  account : String
  folder : String
  uid : String
  flags : String
  from_addr : String
  subject : String
  date_str : String
  raw : Option Bytes
deriving DecidableEq

/-- The persistent cache: the `emails` table as a list in rowid order. -/
abbrev MailCache := List StoredRow

/-- The tuple shape `store_batch` receives:
`(uid, flags, from_addr, subject, date_str, raw)`. -/
structure StoreTuple where
  uid : String
  flags : String
  from_addr : String
  subject : String
  date_str : String
  raw : Option Bytes
deriving DecidableEq

/-- The tuple shape `load_list` returns:
`(uid, flags, from_addr, subject, date_str)`. -/
abbrev ListRow := String × String × String × String × String

/-- Primary-key match used by the WHERE clauses. -/
def keyMatch (a f u : String) (r : StoredRow) : Bool :=
  r.account == a && r.folder == f && r.uid == u

/-- Partition match `WHERE account=? AND folder=?`. -/
def partMatch (a f : String) (r : StoredRow) : Bool :=
  r.account == a && r.folder == f

/-- Whether some stored row has the given primary key (the uniqueness check
behind `INSERT OR IGNORE`). -/
def keyPresent (c : MailCache) (a f u : String) : Bool :=
  c.any (keyMatch a f u)

/-- First row with the given primary key (unique when the cache was built by
`store_batch`, which never inserts a duplicate key). -/
def lookupRow (c : MailCache) (a f u : String) : Option StoredRow :=
  c.find? (keyMatch a f u)

/-- Projection of a stored row to the shape `load_list` returns. -/
def projRow (r : StoredRow) : ListRow :=
  (r.uid, r.flags, r.from_addr, r.subject, r.date_str)

/-- `MailCache.load_list`: rows of one partition, `ORDER BY rowid DESC`. -/
def load_list (c : MailCache) (a f : String) : List ListRow :=
  ((c.filter (partMatch a f)).map projRow).reverse

/-- `MailCache.load_raw`: the raw bytes of one row, `none` when the row is
absent or its BLOB is NULL. -/
def load_raw (c : MailCache) (a f u : String) : Option Bytes :=
  match lookupRow c a f u with
  | some r => r.raw
  | none => none

/-- `MailCache.get_uids`: the set of uids of one partition (a Python set;
modelled as a deduplicated list). -/
def get_uids (c : MailCache) (a f : String) : List String :=
  ((c.filter (partMatch a f)).map StoredRow.uid).dedup

/-- Build a stored row from a `store_batch` tuple. -/
def mkRow (a f : String) (t : StoreTuple) : StoredRow :=
  ⟨a, f, t.uid, t.flags, t.from_addr, t.subject, t.date_str, t.raw⟩

/-- One `INSERT OR IGNORE` step: append the row unless its key is present. -/
def insRow (a f : String) (c : MailCache) (t : StoreTuple) : MailCache :=
  if keyPresent c a f t.uid then c else c ++ [mkRow a f t]

/-- `MailCache.store_batch`: `executemany` of `INSERT OR IGNORE`. -/
def store_batch (c : MailCache) (a f : String) (msgs : List StoreTuple) : MailCache :=
  msgs.foldl (insRow a f) c

/-- `MailCache.delete`: `DELETE FROM emails WHERE account=? AND folder=? AND uid=?`. -/
def delete (c : MailCache) (a f u : String) : MailCache :=
  c.filter (fun r => !(keyMatch a f u r))

/-! ### Basic cache lemmas -/

theorem keyPresent_iff (c : MailCache) (a f u : String) :
    keyPresent c a f u = true ↔ ∃ r ∈ c, keyMatch a f u r = true := by
  simp [keyPresent, List.any_eq_true]

theorem keyMatch_iff (a f u : String) (r : StoredRow) :
    keyMatch a f u r = true ↔ r.account = a ∧ r.folder = f ∧ r.uid = u := by
  simp [keyMatch, and_assoc]

theorem partMatch_iff (a f : String) (r : StoredRow) :
    partMatch a f r = true ↔ r.account = a ∧ r.folder = f := by
  simp [partMatch]

theorem mem_get_uids_iff (c : MailCache) (a f u : String) :
    u ∈ get_uids c a f ↔ ∃ r ∈ c, r.account = a ∧ r.folder = f ∧ r.uid = u := by
  simp only [get_uids, List.mem_dedup, List.mem_map, List.mem_filter, partMatch_iff]
  constructor
  · rintro ⟨r, ⟨hr, ha, hf⟩, hu⟩
    exact ⟨r, hr, ha, hf, hu⟩
  · rintro ⟨r, hr, ha, hf, hu⟩
    exact ⟨r, ⟨hr, ha, hf⟩, hu⟩

theorem keyPresent_iff_mem_uids (c : MailCache) (a f u : String) :
    keyPresent c a f u = true ↔ u ∈ get_uids c a f := by
  rw [keyPresent_iff, mem_get_uids_iff]
  constructor
  · rintro ⟨r, hr, hm⟩
    rw [keyMatch_iff] at hm
    exact ⟨r, hr, hm⟩
  · rintro ⟨r, hr, hm⟩
    exact ⟨r, hr, (keyMatch_iff a f u r).mpr hm⟩

/-- Stored rows are preserved by a further insert step. -/
theorem mem_insRow (a f : String) (c : MailCache) (t : StoreTuple)
    (r : StoredRow) (h : r ∈ c) : r ∈ insRow a f c t := by
  unfold insRow
  split
  · exact h
  · exact List.mem_append_left _ h

/-- Stored rows are preserved by `store_batch`. -/
theorem mem_store_batch (c : MailCache) (a f : String) (msgs : List StoreTuple)
    (r : StoredRow) (h : r ∈ c) : r ∈ store_batch c a f msgs := by
  induction msgs generalizing c with
  | nil => exact h
  | cons t rest ih => exact ih _ (mem_insRow a f c t r h)

/-- A key present before an insert step stays present. -/
theorem keyPresent_insRow (a f : String) (c : MailCache) (t : StoreTuple)
    (u : String) (h : keyPresent c a f u = true) :
    keyPresent (insRow a f c t) a f u = true := by
  rcases (keyPresent_iff c a f u).mp h with ⟨r, hr, hm⟩
  exact (keyPresent_iff _ a f u).mpr ⟨r, mem_insRow a f c t r hr, hm⟩

/-- A key present before `store_batch` stays present. -/
theorem keyPresent_store_batch (c : MailCache) (a f : String)
    (msgs : List StoreTuple) (u : String) (h : keyPresent c a f u = true) :
    keyPresent (store_batch c a f msgs) a f u = true := by
  rcases (keyPresent_iff c a f u).mp h with ⟨r, hr, hm⟩
  exact (keyPresent_iff _ a f u).mpr
    ⟨r, mem_store_batch c a f msgs r hr, hm⟩

/-- After an insert step, the tuple's own key is present. -/
theorem keyPresent_insRow_self (a f : String) (c : MailCache) (t : StoreTuple) :
    keyPresent (insRow a f c t) a f t.uid = true := by
  unfold insRow
  split
  · assumption
  · refine (keyPresent_iff _ a f t.uid).mpr ⟨mkRow a f t, ?_, ?_⟩
    · exact List.mem_append_right _ (List.mem_singleton.mpr rfl)
    · simp [keyMatch, mkRow]

/-- After `store_batch`, every batched uid's key is present. -/
theorem keyPresent_store_batch_self (c : MailCache) (a f : String)
    (msgs : List StoreTuple) (t : StoreTuple) (h : t ∈ msgs) :
    keyPresent (store_batch c a f msgs) a f t.uid = true := by
  induction msgs generalizing c with
  | nil => cases h
  | cons s rest ih =>
    rcases List.mem_cons.mp h with h | h
    · subst h
      exact keyPresent_store_batch (insRow a f c t) a f rest t.uid
        (keyPresent_insRow_self a f c t)
    · exact ih (insRow a f c s) h

/-- `store_batch` over a batch whose keys are all present is a no-op. -/
theorem store_batch_all_present (c : MailCache) (a f : String)
    (msgs : List StoreTuple)
    (h : ∀ t ∈ msgs, keyPresent c a f t.uid = true) :
    store_batch c a f msgs = c := by
  induction msgs generalizing c with
  | nil => rfl
  | cons t rest ih =>
    have ht : insRow a f c t = c := by
      unfold insRow
      rw [if_pos (h t (List.mem_cons_self t rest))]
    show store_batch (insRow a f c t) a f rest = c
    rw [ht]
    exact ih c (fun s hs => h s (List.mem_cons_of_mem t hs))

/-- Storing the same batch twice equals storing it once. -/
theorem store_batch_idem (c : MailCache) (a f : String) (msgs : List StoreTuple) :
    store_batch (store_batch c a f msgs) a f msgs = store_batch c a f msgs :=
  store_batch_all_present _ a f msgs
    (fun t ht => keyPresent_store_batch_self c a f msgs t ht)

/-- A row found for a present key is not shadowed by `store_batch`. -/
theorem lookupRow_store_batch (c : MailCache) (a f : String)
    (msgs : List StoreTuple) (u : String) (h : keyPresent c a f u = true) :
    lookupRow (store_batch c a f msgs) a f u = lookupRow c a f u := by
  induction msgs generalizing c with
  | nil => rfl
  | cons t rest ih =>
    show lookupRow (store_batch (insRow a f c t) a f rest) a f u = _
    rw [ih (insRow a f c t) (keyPresent_insRow a f c t u h)]
    unfold insRow
    split
    · rfl
    · unfold lookupRow
      rw [List.find?_append]
      rcases (keyPresent_iff c a f u).mp h with ⟨r, hr, hm⟩
      have : (c.find? (keyMatch a f u)).isSome := by
        rw [List.find?_isSome]
        exact ⟨r, hr, hm⟩
      rcases Option.isSome_iff_exists.mp this with ⟨r0, hr0⟩
      simp [lookupRow, hr0]

/-! ### Partition frame lemmas -/

theorem partMatch_mkRow_other (a f a2 f2 : String) (t : StoreTuple)
    (hne : ¬(a2 = a ∧ f2 = f)) : partMatch a2 f2 (mkRow a f t) = false := by
  simp only [partMatch, mkRow, Bool.and_eq_false_imp, beq_iff_eq,
    beq_eq_false_iff_ne]
  intro h1 h2
  exact hne ⟨h1.symm, h2.symm⟩

theorem filter_insRow_other (c : MailCache) (a f a2 f2 : String) (t : StoreTuple)
    (hne : ¬(a2 = a ∧ f2 = f)) :
    (insRow a f c t).filter (partMatch a2 f2) = c.filter (partMatch a2 f2) := by
  unfold insRow
  split
  · rfl
  · rw [List.filter_append]
    simp [partMatch_mkRow_other a f a2 f2 t hne]

theorem filter_store_batch_other (c : MailCache) (a f a2 f2 : String)
    (msgs : List StoreTuple) (hne : ¬(a2 = a ∧ f2 = f)) :
    (store_batch c a f msgs).filter (partMatch a2 f2) = c.filter (partMatch a2 f2) := by
  induction msgs generalizing c with
  | nil => rfl
  | cons t rest ih =>
    show (store_batch (insRow a f c t) a f rest).filter _ = _
    rw [ih (insRow a f c t), filter_insRow_other c a f a2 f2 t hne]

theorem load_list_store_batch_other (c : MailCache) (a f a2 f2 : String)
    (msgs : List StoreTuple) (hne : ¬(a2 = a ∧ f2 = f)) :
    load_list (store_batch c a f msgs) a2 f2 = load_list c a2 f2 := by
  unfold load_list
  rw [filter_store_batch_other c a f a2 f2 msgs hne]

theorem get_uids_store_batch_other (c : MailCache) (a f a2 f2 : String)
    (msgs : List StoreTuple) (hne : ¬(a2 = a ∧ f2 = f)) :
    get_uids (store_batch c a f msgs) a2 f2 = get_uids c a2 f2 := by
  unfold get_uids
  rw [filter_store_batch_other c a f a2 f2 msgs hne]

theorem filter_delete_other (c : MailCache) (a f u a2 f2 : String)
    (hne : ¬(a2 = a ∧ f2 = f)) :
    (delete c a f u).filter (partMatch a2 f2) = c.filter (partMatch a2 f2) := by
  unfold delete
  rw [List.filter_filter]
  refine List.filter_congr (fun r _ => ?_)
  cases hp : partMatch a2 f2 r with
  | false => simp [hp]
  | true =>
    rcases (partMatch_iff a2 f2 r).mp hp with ⟨ha, hf⟩
    have hk : keyMatch a f u r = false := by
      cases hk : keyMatch a f u r with
      | false => rfl
      | true =>
        rcases (keyMatch_iff a f u r).mp hk with ⟨ha2, hf2, _⟩
        exact absurd ⟨by rw [← ha, ha2], by rw [← hf, hf2]⟩ hne
    simp [hp, hk]

theorem load_list_delete_other (c : MailCache) (a f u a2 f2 : String)
    (hne : ¬(a2 = a ∧ f2 = f)) :
    load_list (delete c a f u) a2 f2 = load_list c a2 f2 := by
  unfold load_list
  rw [filter_delete_other c a f u a2 f2 hne]

theorem get_uids_delete_other (c : MailCache) (a f u a2 f2 : String)
    (hne : ¬(a2 = a ∧ f2 = f)) :
    get_uids (delete c a f u) a2 f2 = get_uids c a2 f2 := by
  unfold get_uids
  rw [filter_delete_other c a f u a2 f2 hne]

/-! ### Delete and load-list membership lemmas -/

theorem mem_get_uids_delete (c : MailCache) (a f u v : String) :
    v ∈ get_uids (delete c a f u) a f ↔ v ∈ get_uids c a f ∧ v ≠ u := by
  rw [mem_get_uids_iff, mem_get_uids_iff]
  constructor
  · rintro ⟨r, hr, ha, hf, hv⟩
    rw [delete, List.mem_filter] at hr
    rcases hr with ⟨hrc, hk⟩
    refine ⟨⟨r, hrc, ha, hf, hv⟩, ?_⟩
    intro hvu
    rw [Bool.not_eq_eq_eq_not, Bool.not_true] at hk
    rw [(keyMatch_iff a f u r).mpr ⟨ha, hf, by rw [hv, hvu]⟩] at hk
    cases hk
  · rintro ⟨⟨r, hrc, ha, hf, hv⟩, hvu⟩
    refine ⟨r, ?_, ha, hf, hv⟩
    rw [delete, List.mem_filter]
    refine ⟨hrc, ?_⟩
    have : keyMatch a f u r = false := by
      cases hk : keyMatch a f u r with
      | false => rfl
      | true =>
        rcases (keyMatch_iff a f u r).mp hk with ⟨_, _, hu⟩
        exact absurd (hv ▸ hu) hvu
    simp [this]

theorem not_mem_get_uids_delete (c : MailCache) (a f u : String) :
    u ∉ get_uids (delete c a f u) a f := by
  intro h
  exact ((mem_get_uids_delete c a f u u).mp h).2 rfl

theorem delete_absent (c : MailCache) (a f u : String)
    (h : u ∉ get_uids c a f) : delete c a f u = c := by
  unfold delete
  rw [List.filter_eq_self]
  intro r hr
  cases hk : keyMatch a f u r with
  | false => simp [hk]
  | true =>
    rcases (keyMatch_iff a f u r).mp hk with ⟨ha, hf, hu⟩
    exact absurd ((mem_get_uids_iff c a f u).mpr ⟨r, hr, ha, hf, hu⟩) h

theorem mem_load_list_iff (c : MailCache) (a f : String) (x : ListRow) :
    x ∈ load_list c a f ↔ ∃ r ∈ c, partMatch a f r = true ∧ projRow r = x := by
  simp only [load_list, List.mem_reverse, List.mem_map, List.mem_filter]
  constructor
  · rintro ⟨r, ⟨hr, hp⟩, hx⟩
    exact ⟨r, hr, hp, hx⟩
  · rintro ⟨r, hr, hp, hx⟩
    exact ⟨r, ⟨hr, hp⟩, hx⟩

theorem mem_load_list_store_batch (c : MailCache) (a f : String)
    (msgs : List StoreTuple) (x : ListRow) (h : x ∈ load_list c a f) :
    x ∈ load_list (store_batch c a f msgs) a f := by
  rcases (mem_load_list_iff c a f x).mp h with ⟨r, hr, hp, hx⟩
  exact (mem_load_list_iff _ a f x).mpr ⟨r, mem_store_batch c a f msgs r hr, hp, hx⟩

theorem get_uids_mem_load_list (c : MailCache) (a f u : String)
    (h : u ∈ get_uids c a f) : ∃ x ∈ load_list c a f, x.1 = u := by
  rcases (mem_get_uids_iff c a f u).mp h with ⟨r, hr, ha, hf, hu⟩
  refine ⟨projRow r, (mem_load_list_iff c a f _).mpr
    ⟨r, hr, (partMatch_iff a f r).mpr ⟨ha, hf⟩, rfl⟩, hu⟩

/-! ### Concrete cache used by witnesses -/

/-- A small concrete cache: one row in partition ("a", "F"). -/
def demoCache : MailCache := [⟨"a", "F", "u1", "", "x@y", "s", "d", none⟩]

/-- A small concrete batch for witnesses. -/
def demoBatch : List StoreTuple := [⟨"u2", "", "z@w", "t", "d2", none⟩]

/-! ### Claims about the Local Cache Store -/

/-- C2: `store_batch` is idempotent per `(account, folder, uid)` key: storing
the same batch twice leaves the cache (hence the cardinality of `get_uids`)
exactly as storing it once, and a key already present keeps its previously
stored row (insert-or-ignore, never an overwrite). -/
theorem store_batch_idempotent_claim :
    ∀ (c : MailCache) (a f : String) (msgs : List StoreTuple),
      store_batch (store_batch c a f msgs) a f msgs = store_batch c a f msgs ∧
      (get_uids (store_batch (store_batch c a f msgs) a f msgs) a f).length =
        (get_uids (store_batch c a f msgs) a f).length ∧
      ∀ u, keyPresent c a f u = true →
        lookupRow (store_batch c a f msgs) a f u = lookupRow c a f u := by
  intro c a f msgs
  refine ⟨store_batch_idem c a f msgs, by rw [store_batch_idem c a f msgs], ?_⟩
  intro u hu
  exact lookupRow_store_batch c a f msgs u hu

/-- Witness for C2 at a concrete cache and batch. -/
theorem store_batch_idempotent_claim_witness :
    keyPresent demoCache "a" "F" "u1" = true ∧
    lookupRow (store_batch demoCache "a" "F" demoBatch) "a" "F" "u1" =
      lookupRow demoCache "a" "F" "u1" :=
  ⟨by decide, (store_batch_idempotent_claim demoCache "a" "F" demoBatch).2.2 "u1" (by decide)⟩

/-- C6: cache partitions are independent: a `store_batch` or `delete` against
partition `(a, f)` leaves `load_list` and `get_uids` of every other partition
`(a2, f2)` (different account or different folder) unchanged. -/
theorem partition_independence_claim :
    ∀ (c : MailCache) (a f a2 f2 u : String) (msgs : List StoreTuple),
      ¬(a2 = a ∧ f2 = f) →
      load_list (store_batch c a f msgs) a2 f2 = load_list c a2 f2 ∧
      get_uids (store_batch c a f msgs) a2 f2 = get_uids c a2 f2 ∧
      load_list (delete c a f u) a2 f2 = load_list c a2 f2 ∧
      get_uids (delete c a f u) a2 f2 = get_uids c a2 f2 := by
  intro c a f a2 f2 u msgs hne
  exact ⟨load_list_store_batch_other c a f a2 f2 msgs hne,
    get_uids_store_batch_other c a f a2 f2 msgs hne,
    load_list_delete_other c a f u a2 f2 hne,
    get_uids_delete_other c a f u a2 f2 hne⟩

/-- Witness for C6: another account's partition is untouched by a store. -/
theorem partition_independence_claim_witness :
    ¬(("b" : String) = "a" ∧ ("F" : String) = "F") ∧
    load_list (store_batch demoCache "a" "F" demoBatch) "b" "F" =
      load_list demoCache "b" "F" :=
  ⟨by decide,
    (partition_independence_claim demoCache "a" "F" "b" "F" "u1" demoBatch (by decide)).1⟩

/-- C9: `delete(a, f, u)` removes `u` from `get_uids(a, f)`, leaves every
other uid of the partition and every other partition unchanged, and deleting
an absent uid returns normally with the store unchanged. -/
theorem delete_claim :
    ∀ (c : MailCache) (a f u : String),
      u ∉ get_uids (delete c a f u) a f ∧
      (∀ v, v ≠ u → (v ∈ get_uids (delete c a f u) a f ↔ v ∈ get_uids c a f)) ∧
      (∀ a2 f2, ¬(a2 = a ∧ f2 = f) →
        load_list (delete c a f u) a2 f2 = load_list c a2 f2) ∧
      (u ∉ get_uids c a f → delete c a f u = c) := by
  intro c a f u
  refine ⟨not_mem_get_uids_delete c a f u, ?_, ?_, delete_absent c a f u⟩
  · intro v hv
    rw [mem_get_uids_delete c a f u v]
    exact ⟨fun h => h.1, fun h => ⟨h, hv⟩⟩
  · intro a2 f2 hne
    exact load_list_delete_other c a f u a2 f2 hne

/-- Witness for C9: deleting an absent uid leaves the concrete cache as is. -/
theorem delete_claim_witness :
    ("zz" : String) ≠ "u1" ∧ ("zz" ∉ get_uids demoCache "a" "F") ∧
    delete demoCache "a" "F" "zz" = demoCache :=
  ⟨by decide, by decide, (delete_claim demoCache "a" "F" "zz").2.2.2 (by decide)⟩

/-! ### Password encryption (`_encrypt_password` / `_decrypt_password`)

The Fernet primitive comes from the external `cryptography` library; it is
modelled as an abstract box with the library's documented contract: decrypting
a token produced by `enc` recovers the plaintext, tokens are never the empty
string, and `dec` returns `none` exactly when it would raise on a non-token
input. -/

/-- Abstract model of the external Fernet primitive for one fixed key. -/
structure FernetBox where
  enc : String → String
  dec : String → Option String
  round : ∀ s, dec (enc s) = some s
  encNe : ∀ s, enc s ≠ ""

/-- `_encrypt_password`: empty passwords pass through, others are encrypted. -/
def encryptPassword (F : FernetBox) (password : String) : String :=
  if password = "" then "" else F.enc password

/-- `_decrypt_password`: empty strings pass through; a failed decryption
(the except branch) returns the input unchanged for legacy plain text. -/
def decryptPassword (F : FernetBox) (encrypted : String) : String :=
  if encrypted = "" then ""
  else
    match F.dec encrypted with
    | some d => d
    | none => encrypted

/-- A concrete Fernet box used by witnesses: tag with a leading marker char. -/
def demoFernet : FernetBox where
  enc s := String.mk ('Z' :: s.data)
  dec s :=
    match s.data with
    | 'Z' :: rest => some (String.mk rest)
    | _ => none
  round s := by
    cases s with
    | mk l => rfl
  encNe s := by
    intro h
    have : ('Z' :: s.data) = ("" : String).data := congrArg String.data h
    cases this

/-- C5: decrypting an encrypted non-empty password returns the original, and
decrypting a plain legacy string (one the Fernet primitive rejects) returns it
unchanged without raising. -/
theorem password_roundtrip_claim :
    ∀ (F : FernetBox),
      (∀ p, p ≠ "" → decryptPassword F (encryptPassword F p) = p) ∧
      (∀ s, F.dec s = none → decryptPassword F s = s) := by
  intro F
  constructor
  · intro p hp
    unfold encryptPassword decryptPassword
    rw [if_neg hp, if_neg (F.encNe p), F.round p]
  · intro s hs
    unfold decryptPassword
    by_cases h : s = ""
    · rw [if_pos h, h]
    · rw [if_neg h, hs]

/-- Witness for C5 at the concrete Fernet box. -/
theorem password_roundtrip_claim_witness :
    ("pw" : String) ≠ "" ∧
    decryptPassword demoFernet (encryptPassword demoFernet "pw") = "pw" ∧
    demoFernet.dec "legacy" = none ∧
    decryptPassword demoFernet "legacy" = "legacy" :=
  ⟨by decide, (password_roundtrip_claim demoFernet).1 "pw" (by decide),
    by decide, (password_roundtrip_claim demoFernet).2 "legacy" (by decide)⟩

/-! ### View projector (`_update_list` / `_map_display_to_actual`) -/

/-- Does the first char list begin the second? (prefix test for `in`). -/
def charsBegin : List Char → List Char → Bool
  | [], _ => true
  | _ :: _, [] => false
  | a :: n, b :: h => a == b && charsBegin n h

/-- Substring occurrence test: Python's `needle in haystack` on strings. -/
def substrIn (n : List Char) : List Char → Bool
  | [] => charsBegin n []
  | b :: h => charsBegin n (b :: h) || substrIn n h

/-- Python `str.lower()` (per-character lowering). -/
def lowerStr (s : String) : String := String.mk (s.data.map Char.toLower)

/-- Python `needle in haystack` on strings. -/
def pyIn (needle haystack : String) : Bool := substrIn needle.data haystack.data

/-- Visibility of one list row under an already-lowered search text: a row is
skipped iff the search is non-empty and occurs in neither the lowered
`from_addr` nor the lowered `subject`. -/
def rowVisible (s : String) (r : ListRow) : Bool :=
  s == "" || pyIn s (lowerStr r.2.2.1) || pyIn s (lowerStr r.2.2.2.1)

/-- `_update_list`'s filtering: the rows inserted into the tree, in order. -/
def render (rows : List ListRow) (searchText : String) : List ListRow :=
  rows.filter (rowVisible (lowerStr searchText))

/-- The `_update_list` step as seen from the cache: it only reads. -/
def updateList (c : MailCache) (a f searchText : String) :
    MailCache × List ListRow :=
  (c, render (load_list c a f) searchText)

/-- Loop of `_map_display_to_actual`: walk rows keeping a visible-row counter;
return the underlying index of the requested display index, or -1. -/
def mapGo (s : String) : List ListRow → Nat → Nat → Nat → Int
  | [], _, _, _ => -1
  | r :: rest, disp, i, cnt =>
    if rowVisible s r then
      (if cnt = disp then (i : Int) else mapGo s rest disp (i + 1) (cnt + 1))
    else mapGo s rest disp (i + 1) cnt

/-- `_map_display_to_actual`. -/
def mapDisplayToActual (rows : List ListRow) (searchText : String)
    (displayIdx : Nat) : Int :=
  mapGo (lowerStr searchText) rows displayIdx 0 0

theorem mapGo_spec (s : String) :
    ∀ (rows : List ListRow) (d i cnt : Nat) (r : ListRow),
      (rows.filter (rowVisible s))[d]? = some r →
      ∃ j : Nat, mapGo s rows (cnt + d) i cnt = ((i + j : Nat) : Int) ∧
        rows[j]? = some r := by
  intro rows
  induction rows with
  | nil => intro d i cnt r h; cases h
  | cons r0 rest ih =>
    intro d i cnt r h
    cases hv : rowVisible s r0 with
    | true =>
      rw [List.filter_cons_of_pos hv] at h
      cases d with
      | zero =>
        rw [List.getElem?_cons_zero] at h
        refine ⟨0, ?_, by rw [Option.some_inj.mp h]; exact List.getElem?_cons_zero⟩
        simp [mapGo, hv]
      | succ d2 =>
        rw [List.getElem?_cons_succ] at h
        rcases ih d2 (i + 1) (cnt + 1) r h with ⟨j2, hm, hg⟩
        refine ⟨j2 + 1, ?_, by rw [List.getElem?_cons_succ]; exact hg⟩
        have hne : cnt ≠ cnt + (d2 + 1) := by omega
        have harg : cnt + (d2 + 1) = (cnt + 1) + d2 := by omega
        have hidx : (i + 1) + j2 = i + (j2 + 1) := by omega
        simp only [mapGo, hv, if_true, if_neg hne]
        rw [harg, hm, hidx]
    | false =>
      rw [List.filter_cons_of_neg (by simp [hv])] at h
      rcases ih d (i + 1) cnt r h with ⟨j2, hm, hg⟩
      refine ⟨j2 + 1, ?_, by rw [List.getElem?_cons_succ]; exact hg⟩
      have hidx : (i + 1) + j2 = i + (j2 + 1) := by omega
      simp only [mapGo, hv, Bool.false_eq_true, if_false]
      rw [hm, hidx]

/-- C8: a row is visible iff the filter text is empty or a case-insensitive
substring of `from_addr` or `subject`; the update step never mutates the
cache; and the Nth visible row after filtering maps back (through
`_map_display_to_actual`) to exactly the underlying row that produced it. -/
theorem view_filter_claim :
    ∀ (rows : List ListRow) (st : String),
      (∀ r, r ∈ render rows st ↔
        r ∈ rows ∧ rowVisible (lowerStr st) r = true) ∧
      (∀ (c : MailCache) (a f : String), (updateList c a f st).1 = c) ∧
      (∀ (n : Nat) (r : ListRow), (render rows st)[n]? = some r →
        ∃ i : Nat, mapDisplayToActual rows st n = (i : Int) ∧
          rows[i]? = some r) := by
  intro rows st
  refine ⟨fun r => List.mem_filter, fun c a f => rfl, ?_⟩
  intro n r h
  rcases mapGo_spec (lowerStr st) rows n 0 0 r h with ⟨j, hm, hg⟩
  rw [Nat.zero_add, Nat.zero_add] at hm
  exact ⟨j, hm, hg⟩

/-- Witness for C8 at concrete rows and search text "bo". -/
theorem view_filter_claim_witness :
    (render [("u1", "", "Alice", "Hello", "d"), ("u2", "", "Bob", "Meet", "d")]
        "bo")[0]? = some ("u2", "", "Bob", "Meet", "d") ∧
    (∃ i : Nat,
      mapDisplayToActual
        [("u1", "", "Alice", "Hello", "d"), ("u2", "", "Bob", "Meet", "d")]
        "bo" 0 = (i : Int) ∧
      [("u1", "", "Alice", "Hello", "d"),
        ("u2", "", "Bob", "Meet", "d")][i]? = some ("u2", "", "Bob", "Meet", "d")) :=
  ⟨by decide,
    (view_filter_claim
      [("u1", "", "Alice", "Hello", "d"), ("u2", "", "Bob", "Meet", "d")]
      "bo").2.2 0 ("u2", "", "Bob", "Meet", "d") (by decide)⟩

/-! ### Remote mailbox adapters and the sync reconciler

`_fetch_pop3`, `_fetch_imap` and `_delete_thread` are embedded as pure
functions over a server oracle.  Each Boolean `...Fails` field says whether
the corresponding remote call raises; `retr`/`fetchResp` give the server's
answers.  The output records the cache when the function returns (or when the
exception propagates), the returned message list (`none` when the function
raises), whether quit/logout was reached, and which identifiers were
requested from the server. -/

/-- A POP3 message as seen after RETR + decode: header fields and raw bytes.
`retr` returning `none` models RETR or the decode raising for that message. -/
structure Pop3Msg where
  from_addr : String
  subject : String
  date_str : String
  raw : Bytes
deriving DecidableEq

/-- Oracle for one POP3 session of `_fetch_pop3`. -/
structure Pop3Server where
  userFails : Bool
  passFails : Bool
  uidl : Option (List (String × String))
  statFails : Bool
  count : Nat
  retr : Nat → Option Pop3Msg

/-- The message-number window `range(count, start - 1, -1)` with
`start = max(1, count - fetch_limit + 1)` and `fetch_limit = 50`. -/
def pop3Window (count : Nat) : List Nat :=
  (List.range' (max 1 (count - 49)) (count + 1 - max 1 (count - 49))).reverse

/-- Uid synthesis: `uidl_map.get(str(i), str(i))`. -/
def synthUid (uidlMap : List (String × String)) (i : Nat) : String :=
  (uidlMap.lookup (toString i)).getD (toString i)

/-- The `store_batch` tuple built for one fetched POP3 message. -/
def pop3Tuple (uidlMap : List (String × String)) (i : Nat) (m : Pop3Msg) :
    StoreTuple :=
  ⟨synthUid uidlMap i, "", m.from_addr, m.subject, m.date_str, some m.raw⟩

/-- One iteration of the `_fetch_pop3` loop: skip cached uids, otherwise call
RETR (recorded in the second component) and keep the row when it succeeds. -/
def pop3Step (srv : Pop3Server) (uidlMap : List (String × String))
    (cachedUids : List String) (acc : List StoreTuple × List Nat) (i : Nat) :
    List StoreTuple × List Nat :=
  if synthUid uidlMap i ∈ cachedUids then acc
  else
    match srv.retr i with
    | none => (acc.1, acc.2 ++ [i])
    | some m => (acc.1 ++ [pop3Tuple uidlMap i m], acc.2 ++ [i])

/-- The whole `_fetch_pop3` loop. -/
def pop3Acc (srv : Pop3Server) (c : MailCache) (account : String) :
    List StoreTuple × List Nat :=
  (pop3Window srv.count).foldl
    (pop3Step srv (srv.uidl.getD []) (get_uids c account "INBOX")) ([], [])

/-- Output of one fetch attempt. -/
structure Pop3Out where
  cache : MailCache
  result : Option (List ListRow)
  closed : Bool
  attempted : List Nat

/-- `MailGUI._fetch_pop3`: the folder is hard-coded to "INBOX"; a failing
USER, PASS or STAT propagates before `quit`; a failing UIDL is caught and
yields an empty uid map; per-message RETR/decode failures are caught inside
the loop; then quit, one `store_batch`, and a full `load_list` re-read. -/
def pop3Fetch (srv : Pop3Server) (c : MailCache) (account currentFolder : String) :
    Pop3Out :=
  if srv.userFails then ⟨c, none, false, []⟩
  else if srv.passFails then ⟨c, none, false, []⟩
  else if srv.statFails then ⟨c, none, false, []⟩
  else
    ⟨(if (pop3Acc srv c account).1.isEmpty then c
      else store_batch c account "INBOX" (pop3Acc srv c account).1),
     some (load_list
       (if (pop3Acc srv c account).1.isEmpty then c
        else store_batch c account "INBOX" (pop3Acc srv c account).1)
       account "INBOX"),
     true,
     (pop3Acc srv c account).2⟩

/-- Header triple decoded from one IMAP message. -/
structure ImapHeader where
  from_addr : String
  subject : String
  date_str : String
deriving DecidableEq

/-- One item of the IMAP FETCH response: a non-tuple separator, or a message
whose header decode either succeeds or raises (`decoded = none`). -/
inductive ImapItem where
  | nonTuple : ImapItem
  | msgItem (uidVal flags : String) (decoded : Option ImapHeader) (raw : Bytes) : ImapItem
deriving DecidableEq

/-- Oracle for one IMAP session of `_fetch_imap`. -/
structure ImapServer where
  loginFails : Bool
  selectOk : Bool
  searchFails : Bool
  searchUids : List String
  fetchFails : Bool
  fetchResp : List String → List ImapItem

/-- The folder actually selected: the user's folder, or "INBOX" when the
SELECT of the user's folder does not answer OK. -/
def imapFolder (srv : ImapServer) (currentFolder : String) : String :=
  if srv.selectOk then currentFolder else "INBOX"

/-- Python `l[-n:]`. -/
def lastN (n : Nat) (l : List String) : List String := l.drop (l.length - n)

/-- The uids requested from the server: `[u for u in server_uids if u not in
cached_uids]` after the `[-50:]` window. -/
def imapNewUids (srv : ImapServer) (c : MailCache) (account currentFolder : String) :
    List String :=
  (lastN 50 srv.searchUids).filter
    (fun u => !decide (u ∈ get_uids c account (imapFolder srv currentFolder)))

/-- The `_fetch_imap` parse loop: non-tuple items are skipped; a message whose
header decode raises aborts the whole loop (there is no per-item guard). -/
def imapParseItems : List ImapItem → Option (List StoreTuple)
  | [] => some []
  | ImapItem.nonTuple :: rest => imapParseItems rest
  | ImapItem.msgItem _ _ none _ :: _ => none
  | ImapItem.msgItem u fl (some h) raw :: rest =>
    (imapParseItems rest).map
      (fun l => ⟨u, fl, h.from_addr, h.subject, h.date_str, some raw⟩ :: l)

/-- Output of one IMAP fetch attempt. -/
structure ImapOut where
  cache : MailCache
  result : Option (List ListRow)
  closed : Bool
  requested : List String

/-- `MailGUI._fetch_imap`: login, select (with INBOX fallback), uid SEARCH,
window, delta, one bulk uid FETCH for exactly the delta, the unguarded parse
loop, one `store_batch`, logout, and a full `load_list` re-read. -/
def imapFetch (srv : ImapServer) (c : MailCache) (account currentFolder : String) :
    ImapOut :=
  if srv.loginFails then ⟨c, none, false, []⟩
  else if srv.searchFails then ⟨c, none, false, []⟩
  else if (imapNewUids srv c account currentFolder).isEmpty then
    ⟨c, some (load_list c account (imapFolder srv currentFolder)), true,
      imapNewUids srv c account currentFolder⟩
  else if srv.fetchFails then
    ⟨c, none, false, imapNewUids srv c account currentFolder⟩
  else
    match imapParseItems (srv.fetchResp (imapNewUids srv c account currentFolder)) with
    | none => ⟨c, none, false, imapNewUids srv c account currentFolder⟩
    | some newMessages =>
      ⟨(if newMessages.isEmpty then c
        else store_batch c account (imapFolder srv currentFolder) newMessages),
       some (load_list
         (if newMessages.isEmpty then c
          else store_batch c account (imapFolder srv currentFolder) newMessages)
         account (imapFolder srv currentFolder)),
       true,
       imapNewUids srv c account currentFolder⟩

/-- Output of one `_delete_thread` run. -/
structure DelOut where
  cache : MailCache
  ok : Bool
  closed : Bool

/-- Oracle for the POP3 branch of `_delete_thread`. -/
structure Pop3DelServer where
  userFails : Bool
  passFails : Bool
  deleFails : Bool

/-- Oracle for the IMAP branch of `_delete_thread`. -/
structure ImapDelServer where
  loginFails : Bool
  storeFails : Bool
  expungeFails : Bool

/-- POP3 branch of `_delete_thread`: USER, PASS, DELE, quit, cache delete
under the currently selected folder.  Any remote failure propagates before
`quit` and before the cache delete. -/
def pop3DeleteRun (srv : Pop3DelServer) (c : MailCache)
    (account currentFolder uid : String) : DelOut :=
  if srv.userFails then ⟨c, false, false⟩
  else if srv.passFails then ⟨c, false, false⟩
  else if srv.deleFails then ⟨c, false, false⟩
  else ⟨delete c account currentFolder uid, true, true⟩

/-- IMAP branch of `_delete_thread`: login, select, uid STORE +FLAGS Deleted,
expunge, logout, cache delete.  Any remote failure propagates before
`logout` and before the cache delete. -/
def imapDeleteRun (srv : ImapDelServer) (c : MailCache)
    (account currentFolder uid : String) : DelOut :=
  if srv.loginFails then ⟨c, false, false⟩
  else if srv.storeFails then ⟨c, false, false⟩
  else if srv.expungeFails then ⟨c, false, false⟩
  else ⟨delete c account currentFolder uid, true, true⟩

/-! ### Reconciler lemmas -/

/-- The row the loop would build for position `i`, `none` when it is cached
or its RETR/decode fails. -/
def pop3Entry (srv : Pop3Server) (uidlMap : List (String × String))
    (cachedUids : List String) (i : Nat) : Option StoreTuple :=
  if synthUid uidlMap i ∈ cachedUids then none
  else (srv.retr i).map (pop3Tuple uidlMap i)

/-- The batch `_fetch_pop3` hands to `store_batch`. -/
def pop3NewMessages (srv : Pop3Server) (c : MailCache) (account : String) :
    List StoreTuple :=
  (pop3Window srv.count).filterMap
    (pop3Entry srv (srv.uidl.getD []) (get_uids c account "INBOX"))

/-- The positions whose download is attempted (RETR issued). -/
def pop3AttemptList (srv : Pop3Server) (c : MailCache) (account : String) :
    List Nat :=
  (pop3Window srv.count).filter
    (fun i => !decide (synthUid (srv.uidl.getD []) i ∈ get_uids c account "INBOX"))

theorem pop3_foldl_spec (srv : Pop3Server) (uidlMap : List (String × String))
    (cachedUids : List String) :
    ∀ (l : List Nat) (acc : List StoreTuple × List Nat),
      l.foldl (pop3Step srv uidlMap cachedUids) acc =
        (acc.1 ++ l.filterMap (pop3Entry srv uidlMap cachedUids),
         acc.2 ++ l.filter (fun i => !decide (synthUid uidlMap i ∈ cachedUids))) := by
  intro l
  induction l with
  | nil => intro acc; simp
  | cons i rest ih =>
    intro acc
    rw [List.foldl_cons, ih]
    by_cases hmem : synthUid uidlMap i ∈ cachedUids
    · simp [pop3Step, pop3Entry, hmem]
    · cases hr : srv.retr i with
      | none =>
        simp [pop3Step, pop3Entry, hmem, hr, List.append_assoc]
      | some m =>
        simp [pop3Step, pop3Entry, hmem, hr, List.append_assoc]

theorem pop3Acc_eq (srv : Pop3Server) (c : MailCache) (account : String) :
    pop3Acc srv c account =
      (pop3NewMessages srv c account, pop3AttemptList srv c account) := by
  unfold pop3Acc pop3NewMessages pop3AttemptList
  rw [pop3_foldl_spec]
  simp

/-- The `if new_messages:` guard around `store_batch` changes nothing: an
empty batch stores nothing anyway. -/
theorem ifEmptyStore (c : MailCache) (a f : String) (m : List StoreTuple) :
    (if m.isEmpty then c else store_batch c a f m) = store_batch c a f m := by
  cases m with
  | nil => rfl
  | cons t rest => rfl

theorem pop3Fetch_success (srv : Pop3Server) (c : MailCache) (account cf : String)
    (h1 : srv.userFails = false) (h2 : srv.passFails = false)
    (h3 : srv.statFails = false) :
    pop3Fetch srv c account cf =
      ⟨store_batch c account "INBOX" (pop3NewMessages srv c account),
       some (load_list (store_batch c account "INBOX" (pop3NewMessages srv c account))
         account "INBOX"),
       true, pop3AttemptList srv c account⟩ := by
  unfold pop3Fetch
  rw [h1, h2, h3]
  simp only [Bool.false_eq_true, if_false]
  rw [pop3Acc_eq]
  simp only [ifEmptyStore]

/-- A cache with uids "1", "2", "3" already stored under ("acct", "INBOX"). -/
def demoSyncCache : MailCache :=
  [⟨"acct", "INBOX", "1", "", "x", "s", "d", none⟩,
   ⟨"acct", "INBOX", "2", "", "x", "s", "d", none⟩,
   ⟨"acct", "INBOX", "3", "", "x", "s", "d", none⟩]

/-- POP3 server with five messages, no UIDL, every RETR succeeding. -/
def demoPop3 : Pop3Server :=
  ⟨false, false, none, false, 5, fun i => some ⟨"f", "s", "d", [i]⟩⟩

/-- POP3 server where RETR/decode fails for message 5 only. -/
def demoPop3Partial : Pop3Server :=
  ⟨false, false, none, false, 5,
    fun i => if i = 5 then none else some ⟨"f", "s", "d", [i]⟩⟩

/-- POP3 server whose STAT raises. -/
def demoPop3Stat : Pop3Server := ⟨false, false, none, true, 0, fun _ => none⟩

/-- IMAP server advertising uids "4" and "5". -/
def demoImap : ImapServer := ⟨false, true, false, ["4", "5"], false, fun _ => []⟩

/-- IMAP server whose FETCH response decodes "4" fine but raises on "5". -/
def demoImapBad : ImapServer :=
  ⟨false, true, false, ["4", "5"], false,
    fun _ => [ImapItem.msgItem "4" "" (some ⟨"a@x", "Hi", "d"⟩) [1],
              ImapItem.msgItem "5" "" none [2]]⟩

/-! ### Claims about the sync reconciler -/

/-- C4 is false as stated: an exception raised by a remote call outside the
per-message guard returns with the session never closed.  Concretely, a
POP3 fetch whose STAT raises, and a POP3 delete whose DELE raises, both
return with `closed = false`. -/
theorem session_close_counterexample :
    (pop3Fetch demoPop3Stat [] "acct" "INBOX").result = none ∧
    (pop3Fetch demoPop3Stat [] "acct" "INBOX").closed = false ∧
    (pop3DeleteRun ⟨false, false, true⟩ [] "acct" "INBOX" "1").ok = false ∧
    (pop3DeleteRun ⟨false, false, true⟩ [] "acct" "INBOX" "1").closed = false := by
  decide

/-- C4 (amended): the session is closed iff the operation returns without
raising: every non-raising path (including paths with per-message skips)
reaches quit/logout, and every raising path leaves the session open. -/
theorem session_close_claim :
    (∀ (srv : Pop3Server) (c : MailCache) (account cf : String),
      (pop3Fetch srv c account cf).closed =
        (pop3Fetch srv c account cf).result.isSome) ∧
    (∀ (srv : ImapServer) (c : MailCache) (account cf : String),
      (imapFetch srv c account cf).closed =
        (imapFetch srv c account cf).result.isSome) ∧
    (∀ (srv : Pop3DelServer) (c : MailCache) (account cf uid : String),
      (pop3DeleteRun srv c account cf uid).closed =
        (pop3DeleteRun srv c account cf uid).ok) ∧
    (∀ (srv : ImapDelServer) (c : MailCache) (account cf uid : String),
      (imapDeleteRun srv c account cf uid).closed =
        (imapDeleteRun srv c account cf uid).ok) := by
  refine ⟨?_, ?_, ?_, ?_⟩
  · intro srv c account cf
    unfold pop3Fetch
    split
    · rfl
    · split
      · rfl
      · split <;> rfl
  · intro srv c account cf
    unfold imapFetch
    split
    · rfl
    · split
      · rfl
      · split
        · rfl
        · split
          · rfl
          · split <;> rfl
  · intro srv c account cf uid
    unfold pop3DeleteRun
    split
    · rfl
    · split
      · rfl
      · split <;> rfl
  · intro srv c account cf uid
    unfold imapDeleteRun
    split
    · rfl
    · split
      · rfl
      · split <;> rfl

/-- C7: on every successful sync the list handed to the view is a full
re-read of the durable cache for that partition, so it contains every row
the partition already had before the sync. -/
theorem reload_after_store_claim :
    (∀ (srv : Pop3Server) (c : MailCache) (account cf : String)
        (rows : List ListRow),
      (pop3Fetch srv c account cf).result = some rows →
      rows = load_list (pop3Fetch srv c account cf).cache account "INBOX" ∧
      ∀ x ∈ load_list c account "INBOX", x ∈ rows) ∧
    (∀ (srv : ImapServer) (c : MailCache) (account cf : String)
        (rows : List ListRow),
      (imapFetch srv c account cf).result = some rows →
      rows = load_list (imapFetch srv c account cf).cache account
        (imapFolder srv cf) ∧
      ∀ x ∈ load_list c account (imapFolder srv cf), x ∈ rows) := by
  constructor
  · intro srv c account cf rows h
    cases hb1 : srv.userFails with
    | true => rw [pop3Fetch, if_pos hb1] at h; cases h
    | false =>
    cases hb2 : srv.passFails with
    | true => rw [pop3Fetch, if_neg (by simp [hb1]), if_pos hb2] at h; cases h
    | false =>
    cases hb3 : srv.statFails with
    | true =>
      rw [pop3Fetch, if_neg (by simp [hb1]), if_neg (by simp [hb2]),
        if_pos hb3] at h
      cases h
    | false =>
      rw [pop3Fetch_success srv c account cf hb1 hb2 hb3] at h ⊢
      have hrows := Option.some_inj.mp h
      refine ⟨hrows.symm, ?_⟩
      intro x hx
      rw [← hrows]
      exact mem_load_list_store_batch c account "INBOX"
        (pop3NewMessages srv c account) x hx
  · intro srv c account cf rows h
    cases hb1 : srv.loginFails with
    | true => rw [imapFetch, if_pos hb1] at h; cases h
    | false =>
    cases hb2 : srv.searchFails with
    | true => rw [imapFetch, if_neg (by simp [hb1]), if_pos hb2] at h; cases h
    | false =>
      rw [imapFetch, if_neg (by simp [hb1]), if_neg (by simp [hb2])] at h ⊢
      cases hni : (imapNewUids srv c account cf).isEmpty with
      | true =>
        rw [if_pos hni] at h
        have hrows : load_list c account (imapFolder srv cf) = rows :=
          Option.some_inj.mp h
        exact ⟨hrows.symm, fun x hx => hrows ▸ hx⟩
      | false =>
        rw [if_neg (by simp [hni])] at h
        cases hff : srv.fetchFails with
        | true => rw [if_pos hff] at h; simp at h
        | false =>
          rw [if_neg (by simp [hff])] at h
          cases hpi : imapParseItems
              (srv.fetchResp (imapNewUids srv c account cf)) with
          | none => rw [hpi] at h; simp at h
          | some nm =>
            rw [hpi] at h
            have hrows : load_list
                (if nm.isEmpty then c
                 else store_batch c account (imapFolder srv cf) nm)
                account (imapFolder srv cf) = rows := Option.some_inj.mp h
            refine ⟨hrows.symm, ?_⟩
            rw [ifEmptyStore] at hrows
            intro x hx
            rw [← hrows]
            exact mem_load_list_store_batch c account (imapFolder srv cf) nm x hx

/-- Witness for C7: an empty sync returns exactly the re-read of the cache. -/
theorem reload_after_store_claim_witness :
    (pop3Fetch demoPop3 demoSyncCache "acct" "X").result =
      some (load_list (pop3Fetch demoPop3 demoSyncCache "acct" "X").cache
        "acct" "INBOX") ∧
    (∀ x ∈ load_list demoSyncCache "acct" "INBOX",
      x ∈ load_list (pop3Fetch demoPop3 demoSyncCache "acct" "X").cache
        "acct" "INBOX") := by
  refine ⟨by decide, ?_⟩
  intro x hx
  have h := (reload_after_store_claim.1 demoPop3 demoSyncCache "acct" "X"
    (load_list (pop3Fetch demoPop3 demoSyncCache "acct" "X").cache "acct" "INBOX")
    (by decide)).2 x hx
  exact h

/-- C3 is false as stated for the IMAP path: a batch where message "4"
decodes fine but message "5"'s decode raises produces a total failure —
nothing is persisted, message "4" is not visible afterward. -/
theorem partial_batch_counterexample :
    (imapFetch demoImapBad [] "acct" "INBOX").result = none ∧
    (imapFetch demoImapBad [] "acct" "INBOX").cache = [] ∧
    "4" ∉ get_uids (imapFetch demoImapBad [] "acct" "INBOX").cache "acct" "INBOX" := by
  decide

/-- C3 (amended): on the POP3 path a per-message failure skips only that
message — every position whose RETR+decode succeeds is persisted and visible
and the sync still returns a list; on the IMAP path a decode failure of any
item aborts the whole batch before `store_batch`: the sync raises and the
cache keeps its prior state. -/
theorem partial_batch_claim :
    (∀ (srv : Pop3Server) (c : MailCache) (account cf : String) (i : Nat)
        (m : Pop3Msg),
      srv.userFails = false → srv.passFails = false → srv.statFails = false →
      i ∈ (pop3Fetch srv c account cf).attempted → srv.retr i = some m →
      ∃ rows, (pop3Fetch srv c account cf).result = some rows ∧
        synthUid (srv.uidl.getD []) i ∈
          get_uids (pop3Fetch srv c account cf).cache account "INBOX" ∧
        ∃ x ∈ rows, x.1 = synthUid (srv.uidl.getD []) i) ∧
    (∀ (srv : ImapServer) (c : MailCache) (account cf : String),
      (imapNewUids srv c account cf).isEmpty = false →
      imapParseItems (srv.fetchResp (imapNewUids srv c account cf)) = none →
      (imapFetch srv c account cf).result = none ∧
      (imapFetch srv c account cf).cache = c) := by
  constructor
  · intro srv c account cf i m h1 h2 h3 hatt hr
    rw [pop3Fetch_success srv c account cf h1 h2 h3] at hatt ⊢
    have hmem := List.mem_filter.mp hatt
    have hnm : synthUid (srv.uidl.getD []) i ∉ get_uids c account "INBOX" := by
      simpa using hmem.2
    have htup : pop3Tuple (srv.uidl.getD []) i m ∈ pop3NewMessages srv c account := by
      refine List.mem_filterMap.mpr ⟨i, hmem.1, ?_⟩
      simp [pop3Entry, hnm, hr, pop3Tuple]
    have hkey := keyPresent_store_batch_self c account "INBOX"
      (pop3NewMessages srv c account) (pop3Tuple (srv.uidl.getD []) i m) htup
    have huid : synthUid (srv.uidl.getD []) i ∈
        get_uids (store_batch c account "INBOX" (pop3NewMessages srv c account))
          account "INBOX" :=
      (keyPresent_iff_mem_uids _ account "INBOX" _).mp hkey
    refine ⟨load_list
      (store_batch c account "INBOX" (pop3NewMessages srv c account))
      account "INBOX", rfl, huid, ?_⟩
    exact get_uids_mem_load_list _ account "INBOX" _ huid
  · intro srv c account cf hni hpi
    cases hb1 : srv.loginFails with
    | true => refine ⟨?_, ?_⟩ <;> simp [imapFetch, hb1]
    | false =>
    cases hb2 : srv.searchFails with
    | true => refine ⟨?_, ?_⟩ <;> simp [imapFetch, hb1, hb2]
    | false =>
      unfold imapFetch
      rw [if_neg (by simp [hb1]), if_neg (by simp [hb2]),
        if_neg (by simp [hni])]
      cases hff : srv.fetchFails with
      | true => exact ⟨rfl, rfl⟩
      | false =>
        rw [hpi]
        exact ⟨rfl, rfl⟩

/-- Witness for C3 (amended): RETR fails for message 5 and succeeds for 4;
message 4 is persisted and visible, and the concrete aborted IMAP batch
leaves the cache untouched. -/
theorem partial_batch_claim_witness :
    4 ∈ (pop3Fetch demoPop3Partial demoSyncCache "acct" "X").attempted ∧
    demoPop3Partial.retr 4 = some ⟨"f", "s", "d", [4]⟩ ∧
    (∃ rows,
      (pop3Fetch demoPop3Partial demoSyncCache "acct" "X").result = some rows ∧
      synthUid (demoPop3Partial.uidl.getD []) 4 ∈
        get_uids (pop3Fetch demoPop3Partial demoSyncCache "acct" "X").cache
          "acct" "INBOX" ∧
      ∃ x ∈ rows, x.1 = synthUid (demoPop3Partial.uidl.getD []) 4) ∧
    (imapFetch demoImapBad [] "acct" "INBOX").cache = [] :=
  ⟨by decide, by decide,
   partial_batch_claim.1 demoPop3Partial demoSyncCache "acct" "X" 4
     ⟨"f", "s", "d", [4]⟩ rfl rfl rfl (by decide) (by decide),
   (partial_batch_claim.2 demoImapBad [] "acct" "INBOX" (by decide) (by decide)).2⟩

/-- C10: the POP3 fetch path never depends on the selected folder — its
result is identical for any two selected folders and it writes only the
("account", "INBOX") partition — while the IMAP path (when its SELECT
answers OK) works under the selected folder and leaves every partition other
than (account, selected folder) unchanged. -/
theorem pop3_inbox_claim :
    (∀ (srv : Pop3Server) (c : MailCache) (account cf cf2 : String),
      pop3Fetch srv c account cf = pop3Fetch srv c account cf2) ∧
    (∀ (srv : Pop3Server) (c : MailCache) (account cf a2 f2 : String),
      ¬(a2 = account ∧ f2 = "INBOX") →
      load_list (pop3Fetch srv c account cf).cache a2 f2 = load_list c a2 f2) ∧
    (∀ (srv : ImapServer) (c : MailCache) (account cf a2 f2 : String),
      srv.selectOk = true → ¬(a2 = account ∧ f2 = cf) →
      load_list (imapFetch srv c account cf).cache a2 f2 = load_list c a2 f2) := by
  refine ⟨fun srv c account cf cf2 => rfl, ?_, ?_⟩
  · intro srv c account cf a2 f2 hne
    unfold pop3Fetch
    split
    · rfl
    · split
      · rfl
      · split
        · rfl
        · rw [ifEmptyStore]
          exact load_list_store_batch_other c account "INBOX" a2 f2 _ hne
  · intro srv c account cf a2 f2 hsel hne
    have hfol : imapFolder srv cf = cf := by rw [imapFolder, if_pos hsel]
    unfold imapFetch
    split
    · rfl
    · split
      · rfl
      · split
        · rfl
        · split
          · rfl
          · split
            · rfl
            · rw [ifEmptyStore, hfol]
              exact load_list_store_batch_other c account cf a2 f2 _ hne

/-- Witness for C10 at concrete servers: two different selected folders give
the same POP3 fetch, another partition is untouched by it, and the IMAP
fetch under selected folder "Sent" leaves a foreign partition unchanged. -/
theorem pop3_inbox_claim_witness :
    pop3Fetch demoPop3 demoSyncCache "acct" "X" =
      pop3Fetch demoPop3 demoSyncCache "acct" "Y" ∧
    ¬(("b" : String) = "acct" ∧ ("F" : String) = "INBOX") ∧
    load_list (pop3Fetch demoPop3 demoSyncCache "acct" "X").cache "b" "F" =
      load_list demoSyncCache "b" "F" ∧
    demoImap.selectOk = true ∧
    load_list (imapFetch demoImap demoSyncCache "acct" "Sent").cache "b" "Sent" =
      load_list demoSyncCache "b" "Sent" :=
  ⟨pop3_inbox_claim.1 demoPop3 demoSyncCache "acct" "X" "Y", by decide,
   pop3_inbox_claim.2.1 demoPop3 demoSyncCache "acct" "X" "b" "F" (by decide),
   rfl,
   pop3_inbox_claim.2.2 demoImap demoSyncCache "acct" "Sent" "b" "Sent" rfl
     (by decide)⟩

end MailGui
